import Mathlib

/-!
Shallow embedding of the dynamically-resized priority queue of
`src/include/PriorityQueue.hpp` (template class `PriorityQueue<T>`).

Modelling conventions:
* The three parallel C++ arrays `mItems` / `mPriorities` / `mIds` are mutated in
  lockstep and only the first `mSize` slots are ever observable, so they are
  embedded as one `List (Node α)` whose length is `mSize`.  Slots between
  `mSize` and `mCapacity` hold destroyed objects that the C++ code never reads
  observably: the only out-of-range comparison it can make is
  `greaterPriority(i, i)` on the same slot (both child sentinels equal to `i`
  when the heap is empty), which is `false` whatever the slot holds, and the
  embedding's default-valued reads give `false` there as well.
* `size_t` quantities (`mSize`, `mCapacity`, `mInitialCapacity`, `mStepSize`,
  `mNextId`) are embedded as `Nat`.  The only place the code itself drives a
  counter toward the `size_t` boundary is `mNextId`, and there the code's own
  `MAX_ID` comparisons (`checkIdOverflow`) are transcribed literally, so the
  wrap of `mNextId++` is intercepted by the guard exactly as in the source;
  capacities can wrap only past states with `2^64` live elements, which the
  idealized `Nat` model keeps unbounded.  `mNumResizes` is a C++ `int` counter
  that only ever increments; it is embedded as `Nat`.
* `int` priorities are embedded as `Int`; only comparisons are performed on
  them, so the embedding is exact on all representable values.
* C++ exceptions (`out_of_range` in the constructor, `runtime_error` in
  `consolidateIds`) are embedded as `Except.error` with the source's message.
* The constructor's initializer list (PriorityQueue.hpp lines 78-101) does not
  initialize `mNextId`, so a freshly constructed queue holds an indeterminate
  value there; `pqNew` takes that indeterminate value as an explicit argument.
* The `while` loops of `sink` and `swim` are embedded as structurally
  recursive functions on an explicit step budget (`sinkF` / `swimF`); the
  wrappers `sink` / `swim` supply a budget that is proved sufficient
  (`sinkF_isSome` / `swimF_isSome`), so the budgeted functions never hit the
  `none` branch and compute the loop's result.
-/

/-- One logical heap node: slot `i` of the triad `mItems[i]`, `mPriorities[i]`,
`mIds[i]`. -/
structure Node (α : Type) where
  item : α
  priority : Int
  id : Nat
deriving DecidableEq, Repr

/-- `DynamicCollectionBase::MAX_ID = numeric_limits<size_t>::max()`. -/
def MAX_ID : Nat := 2 ^ 64 - 1

/-- Message of the `out_of_range` thrown by the constructor. -/
def stepSizeErrMsg : String := "Your stepSize is stupid."

/-- Message of the `runtime_error` thrown by `consolidateIds`. -/
def consolidateErrMsg : String :=
  "PriorityQueue::consolidateIds() has been left as an exercise to the reader."

/-- Read `mPriorities[i]` (default-valued outside the live range, see header
comment). -/
def prioAt {α : Type} (l : List (Node α)) (i : Nat) : Int :=
  ((l.get? i).map Node.priority).getD 0

/-- Read `mIds[i]` (default-valued outside the live range). -/
def idAt {α : Type} (l : List (Node α)) (i : Nat) : Nat :=
  ((l.get? i).map Node.id).getD 0

/-- `greaterPriority(lhs, rhs)` (PriorityQueue.hpp lines 540-545):
`mPriorities[lhs] > mPriorities[rhs] || (mPriorities[lhs] == mPriorities[rhs]
&& mIds[lhs] < mIds[rhs])`. -/
def greaterPriority {α : Type} (l : List (Node α)) (lhs rhs : Nat) : Bool :=
  decide (prioAt l rhs < prioAt l lhs) ||
    (prioAt l lhs == prioAt l rhs && decide (idAt l lhs < idAt l rhs))

/-- `parentIdxOf(i)`: `(i > 0) ? (i - 1) / 2 : i`. -/
def parentIdxOf (i : Nat) : Nat :=
  if 0 < i then (i - 1) / 2 else i

/-- `leftIdxOf(i)`: `2*i+1` if that is `< mSize`, else the sentinel `i`. -/
def leftIdxOf (sz i : Nat) : Nat :=
  if 2 * i + 1 < sz then 2 * i + 1 else i

/-- `rightIdxOf(i)`: `2*i+2` if that is `< mSize`, else the sentinel `i`. -/
def rightIdxOf (sz i : Nat) : Nat :=
  if 2 * i + 2 < sz then 2 * i + 2 else i

/-- `swapNodes(a, b)`: swap slots `a` and `b` across all three arrays. -/
def swapNodes {α : Type} (l : List (Node α)) (a b : Nat) : List (Node α) :=
  match l.get? a, l.get? b with
  | some x, some y => (l.set a y).set b x
  | _, _ => l

/-- The destination index one iteration of `sink` picks (PriorityQueue.hpp
lines 490-503): start from `destIdx = i`, overwrite with the right child if
`greaterPriority(rightIdx, leftIdx)`, else with the left child if
`greaterPriority(leftIdx, rightIdx)`. -/
def sinkDest {α : Type} (l : List (Node α)) (i : Nat) : Nat :=
  if greaterPriority l (rightIdxOf l.length i) (leftIdxOf l.length i) then
    rightIdxOf l.length i
  else if greaterPriority l (leftIdxOf l.length i) (rightIdxOf l.length i) then
    leftIdxOf l.length i
  else i

/-- The `while(!heapified)` loop of `sink` (lines 486-514), with an explicit
step budget; each iteration either stops (`destIdx == i`) or swaps and
continues from `destIdx`. -/
def sinkF {α : Type} : Nat → List (Node α) → Nat → Option (List (Node α))
  | 0, _, _ => none
  | fuel + 1, l, i =>
    if sinkDest l i = i then some l
    else sinkF fuel (swapNodes l (sinkDest l i) i) (sinkDest l i)

/-- `sink(i)`: run the loop with the (sufficient, see `sinkF_isSome`) budget
`l.length + 1`. -/
def sink {α : Type} (l : List (Node α)) (i : Nat) : List (Node α) :=
  (sinkF (l.length + 1) l i).getD l

/-- The `while(parentIdx != i && greaterPriority(i, parentIdx))` loop of
`swim` (lines 521-531), with an explicit step budget. -/
def swimF {α : Type} : Nat → List (Node α) → Nat → Option (List (Node α))
  | 0, _, _ => none
  | fuel + 1, l, i =>
    if parentIdxOf i = i then some l
    else if greaterPriority l i (parentIdxOf i) then
      swimF fuel (swapNodes l (parentIdxOf i) i) (parentIdxOf i)
    else some l

/-- `swim(i)`: run the loop with the (sufficient, see `swimF_isSome`) budget
`i + 1`. -/
def swim {α : Type} (l : List (Node α)) (i : Nat) : List (Node α) :=
  (swimF (i + 1) l i).getD l

/-- The container state: live nodes plus the bookkeeping members
`mInitialCapacity`, `mStepSize`, `mCapacity`, `mNextId`, `mNumResizes`
(`mStepSize2x` is the cached constant `2 * mStepSize` and is kept derived). -/
structure PQ (α : Type) where
  nodes : List (Node α)
  initialCapacity : Nat
  stepSize : Nat
  capacity : Nat
  nextId : Nat
  numResizes : Nat
deriving DecidableEq, Repr

/-- The constructor (lines 78-101).  `nextIdIndeterminate` is the value the
uninitialized member `mNextId` happens to hold: the initializer list sets
every other counter but omits `mNextId`.  Throws `out_of_range` when
`stepSize == 0 || stepSize > (MAX_ID - initialCapacity)`. -/
def pqNew (α : Type) (initialCapacity stepSize nextIdIndeterminate : Nat) :
    Except String (PQ α) :=
  if stepSize = 0 ∨ MAX_ID - initialCapacity < stepSize then
    Except.error stepSizeErrMsg
  else
    Except.ok (PQ.mk [] initialCapacity stepSize initialCapacity
      nextIdIndeterminate 0)

/-- `resize(newCapacity)` (lines 449-479): reallocates at `newCapacity`,
transfers all live nodes in order (a no-op on the node list in this model),
and increments `mNumResizes`. -/
def PQ.resize {α : Type} (q : PQ α) (newCapacity : Nat) : PQ α :=
  { q with capacity := newCapacity, numResizes := q.numResizes + 1 }

/-- `checkCapacity()` (lines 387-402): after a removal, shrink to
`mCapacity - mStepSize` when `mCapacity >= mStepSize2x`,
`mSize < mCapacity - mStepSize2x` and the shrunk capacity is still
`>= mInitialCapacity`. -/
def PQ.checkCapacity {α : Type} (q : PQ α) : PQ α :=
  if 2 * q.stepSize ≤ q.capacity ∧ q.nodes.length < q.capacity - 2 * q.stepSize then
    if q.initialCapacity ≤ q.capacity - q.stepSize then
      q.resize (q.capacity - q.stepSize)
    else q
  else q

/-- `checkIdOverflow()` (lines 411-417) together with the body of
`consolidateIds()` (lines 422-429): when `mNextId == MAX_ID && mSize < MAX_ID`
the code calls `consolidateIds`, whose entire body throws `runtime_error`. -/
def PQ.checkIdOverflow {α : Type} (q : PQ α) : Except String Unit :=
  if q.nextId = MAX_ID ∧ q.nodes.length < MAX_ID then
    Except.error consolidateErrMsg
  else Except.ok ()

/-- The `if(mSize == mCapacity) resize(mCapacity + mStepSize)` step at the top
of `insert` (lines 202-205). -/
def PQ.grown {α : Type} (q : PQ α) : PQ α :=
  if q.nodes.length = q.capacity then q.resize (q.capacity + q.stepSize) else q

/-- `insert(item, score)` (lines 201-216): grow by `mStepSize` when
`mSize == mCapacity`, run `checkIdOverflow`, create the node at index `mSize`
with id `mNextId`, increment `mNextId` and `mSize`, then `swim` the new node.
On the throwing path the C++ object keeps the mutations made before the throw;
the model returns only the error. -/
def PQ.insert {α : Type} (q : PQ α) (item : α) (score : Int) :
    Except String (PQ α) :=
  q.grown.checkIdOverflow.bind fun _ =>
    Except.ok { q.grown with
      nodes := swim (q.grown.nodes ++ [Node.mk item score q.grown.nextId])
        q.grown.nodes.length,
      nextId := q.grown.nextId + 1 }

/-- `pop()` (lines 246-262): no-op when empty; otherwise swap the root with the
last node, destroy the last slot, decrement `mSize`, run `checkCapacity`, then
`sink` the new root. -/
def PQ.pop {α : Type} (q : PQ α) : PQ α :=
  if q.nodes.length = 0 then q
  else
    let q1 := PQ.checkCapacity
      { q with nodes := (swapNodes q.nodes 0 (q.nodes.length - 1)).dropLast }
    { q1 with nodes := sink q1.nodes 0 }

/-- `clear()` (lines 274-278): destroy all nodes, set `mSize = 0`, then
`resize(mInitialCapacity)` unconditionally. -/
def PQ.clear {α : Type} (q : PQ α) : PQ α :=
  PQ.resize { q with nodes := [] } q.initialCapacity

/-- `getSize()`. -/
def PQ.getSize {α : Type} (q : PQ α) : Nat := q.nodes.length

/-- `getCapacity()`. -/
def PQ.getCapacity {α : Type} (q : PQ α) : Nat := q.capacity

/-- `getNumResizes()`. -/
def PQ.getNumResizes {α : Type} (q : PQ α) : Nat := q.numResizes

/-- `empty()`. -/
def PQ.emptyQ {α : Type} (q : PQ α) : Bool := q.nodes.length == 0

/-- `top()` (lines 229-231): returns `mItems[0]`; `none` models the
undefined-behavior read on an empty container. -/
def PQ.top {α : Type} (q : PQ α) : Option α :=
  (q.nodes.get? 0).map Node.item

/-- Drive the queue through a list of `insert` calls. -/
def insertSeq {α : Type} (q : PQ α) : List (α × Int) → Except String (PQ α)
  | [] => Except.ok q
  | (it, sc) :: rest => (q.insert it sc).bind fun q2 => insertSeq q2 rest

/-- Read the root's (priority, insertion id) then `pop`, repeatedly, with a
step budget. -/
def drainF {α : Type} : Nat → PQ α → List (Int × Nat)
  | 0, _ => []
  | fuel + 1, q =>
    if q.nodes.length = 0 then []
    else (prioAt q.nodes 0, idAt q.nodes 0) :: drainF fuel q.pop

/-- The drain experiment of the round-trip property: repeatedly read the top
node's (priority, insertion id) and `pop` until the queue is empty.  Each
`pop` removes exactly one node, so the budget `q.nodes.length` drains the
queue completely. -/
def PQ.drainPairs {α : Type} (q : PQ α) : List (Int × Nat) :=
  drainF q.nodes.length q

/-- Modelled from the spec: the order the drained (priority, insertion id)
pairs must come out in — non-increasing priority, and ascending insertion id
among equal priorities (each pair strictly precedes the next under the
tie-break ordering). -/
def specOrderedPairs : List (Int × Nat) → Bool
  | a :: b :: rest =>
    (decide (b.1 < a.1) || (a.1 == b.1 && decide (a.2 < b.2))) &&
      specOrderedPairs (b :: rest)
  | _ => true

/-- Modelled from the spec (sift-down candidate rule, spec section 4.1):
compare right vs left first; if the right child is strictly greater the
candidate is the right child; else if the left child is strictly greater the
candidate is the left child; else (equal effective priority, or children
absent via the `child index == i` sentinel) the candidate is `i` itself. -/
def candidateSpec {α : Type} (l : List (Node α)) (i : Nat) : Nat :=
  if greaterPriority l (rightIdxOf l.length i) (leftIdxOf l.length i) then
    rightIdxOf l.length i
  else if greaterPriority l (leftIdxOf l.length i) (rightIdxOf l.length i) then
    leftIdxOf l.length i
  else i

/-- Round-trip run for the extraction-order claim: construct with the default
configuration (indeterminate `mNextId` taken as 0, its intended value), insert
items 0..5 with priorities `[1, 2, 4, 5, 0, 3]` (insertion ids 0..5), then
drain. -/
def c1Run : Except String (List (Int × Nat)) :=
  (pqNew Nat 30 10 0).bind fun q =>
    (insertSeq q [(0, 1), (1, 2), (2, 4), (3, 5), (4, 0), (5, 3)]).map
      PQ.drainPairs

/-- Invariant run A: insert priorities `[0, 0, 1, 0, 1, 1]` (ids 0..5), then
one `pop`. -/
def c2RunA : Except String (PQ Nat) :=
  (pqNew Nat 30 10 0).bind fun q =>
    (insertSeq q [(0, 0), (1, 0), (2, 1), (3, 0), (4, 1), (5, 1)]).map PQ.pop

/-- Invariant run B: insert priorities `[0, 0, 1, 1, 0, 1]` (ids 0..5), then
three `pop` calls. -/
def c2RunB : Except String (PQ Nat) :=
  (pqNew Nat 30 10 0).bind fun q =>
    (insertSeq q [(0, 0), (1, 0), (2, 1), (3, 1), (4, 0), (5, 1)]).map
      fun q2 => q2.pop.pop.pop

/-- States reachable from a successfully constructed queue by successful
`insert` calls, `pop` and `clear`. -/
inductive ReachablePQ {α : Type} : PQ α → Prop
  | fresh {ic st j : Nat} {q : PQ α} (h : pqNew α ic st j = Except.ok q) :
      ReachablePQ q
  | insertStep {q q2 : PQ α} {it : α} {sc : Int} (hq : ReachablePQ q)
      (h : q.insert it sc = Except.ok q2) : ReachablePQ q2
  | popStep {q : PQ α} (hq : ReachablePQ q) : ReachablePQ q.pop
  | clearStep {q : PQ α} (hq : ReachablePQ q) : ReachablePQ q.clear

/-! Helper lemmas. -/

theorem swapNodes_length {α : Type} (l : List (Node α)) (a b : Nat) :
    (swapNodes l a b).length = l.length := by
  unfold swapNodes
  cases h1 : l.get? a <;> cases h2 : l.get? b <;> simp

theorem greaterPriority_irrefl {α : Type} (l : List (Node α)) (a : Nat) :
    greaterPriority l a a = false := by
  simp [greaterPriority]

theorem sinkDest_ne {α : Type} {l : List (Node α)} {i : Nat}
    (h : sinkDest l i ≠ i) : i < sinkDest l i ∧ sinkDest l i < l.length := by
  unfold sinkDest rightIdxOf leftIdxOf at h ⊢
  split_ifs at h ⊢ <;> omega

theorem sinkF_isSome {α : Type} (fuel : Nat) :
    ∀ (l : List (Node α)) (i : Nat), l.length - i < fuel →
      (sinkF fuel l i).isSome = true := by
  induction fuel with
  | zero => intro l i h; omega
  | succ fuel ih =>
    intro l i h
    simp only [sinkF]
    split
    · rfl
    · next hne =>
      have hd := sinkDest_ne hne
      exact ih _ _ (by rw [swapNodes_length]; omega)

theorem sinkF_fuel_eq {α : Type} (f1 : Nat) :
    ∀ (f2 : Nat) (l : List (Node α)) (i : Nat),
      l.length - i < f1 → l.length - i < f2 → sinkF f1 l i = sinkF f2 l i := by
  induction f1 with
  | zero => intro f2 l i h1 _; omega
  | succ f1 ih =>
    intro f2 l i h1 h2
    cases f2 with
    | zero => omega
    | succ f2 =>
      simp only [sinkF]
      split
      · rfl
      · next hne =>
        have hd := sinkDest_ne hne
        exact ih f2 _ _ (by rw [swapNodes_length]; omega)
          (by rw [swapNodes_length]; omega)

theorem sinkF_length {α : Type} (fuel : Nat) :
    ∀ (l r : List (Node α)) (i : Nat), sinkF fuel l i = some r →
      r.length = l.length := by
  induction fuel with
  | zero => intro l r i h; simp [sinkF] at h
  | succ fuel ih =>
    intro l r i h
    simp only [sinkF] at h
    split at h
    · rw [← Option.some.inj h]
    · rw [ih _ _ _ h, swapNodes_length]

theorem sink_length {α : Type} (l : List (Node α)) (i : Nat) :
    (sink l i).length = l.length := by
  unfold sink
  have hs := sinkF_isSome (l.length + 1) l i (by omega)
  cases hobt : sinkF (l.length + 1) l i with
  | none => rw [hobt] at hs; simp at hs
  | some r => simpa using sinkF_length _ _ _ _ hobt

theorem sink_unfold {α : Type} (l : List (Node α)) (i : Nat) :
    sink l i = if sinkDest l i = i then l
      else sink (swapNodes l (sinkDest l i) i) (sinkDest l i) := by
  split
  · next heq =>
    unfold sink
    simp only [sinkF, heq, if_true]
    rfl
  · next hne =>
    have hd := sinkDest_ne hne
    have hlen : (swapNodes l (sinkDest l i) i).length = l.length :=
      swapNodes_length l (sinkDest l i) i
    unfold sink
    have h1 : sinkF (l.length + 1) l i
        = sinkF l.length (swapNodes l (sinkDest l i) i) (sinkDest l i) := by
      simp only [sinkF, hne, if_false]
    have h2 : sinkF l.length (swapNodes l (sinkDest l i) i) (sinkDest l i)
        = sinkF ((swapNodes l (sinkDest l i) i).length + 1)
            (swapNodes l (sinkDest l i) i) (sinkDest l i) :=
      sinkF_fuel_eq _ _ _ _ (by rw [hlen]; omega) (by rw [hlen]; omega)
    rw [h1, h2]
    have hs := sinkF_isSome ((swapNodes l (sinkDest l i) i).length + 1)
      (swapNodes l (sinkDest l i) i) (sinkDest l i) (by omega)
    cases hobt : sinkF ((swapNodes l (sinkDest l i) i).length + 1)
        (swapNodes l (sinkDest l i) i) (sinkDest l i) with
    | none => rw [hobt] at hs; simp at hs
    | some r => rfl

theorem parentIdxOf_lt {i : Nat} (h : 0 < i) : parentIdxOf i < i := by
  unfold parentIdxOf
  rw [if_pos h]
  calc (i - 1) / 2 ≤ i - 1 := Nat.div_le_self _ _
    _ < i := by omega

theorem parentIdxOf_ne {i : Nat} (h : parentIdxOf i ≠ i) :
    0 < i ∧ parentIdxOf i < i := by
  by_cases hi : 0 < i
  · exact ⟨hi, parentIdxOf_lt hi⟩
  · exfalso
    apply h
    unfold parentIdxOf
    rw [if_neg hi]

theorem swimF_isSome {α : Type} (fuel : Nat) :
    ∀ (l : List (Node α)) (i : Nat), i < fuel →
      (swimF fuel l i).isSome = true := by
  induction fuel with
  | zero => intro l i h; omega
  | succ fuel ih =>
    intro l i h
    simp only [swimF]
    split
    · rfl
    · next hne =>
      split
      · exact ih _ _ (by have := parentIdxOf_ne hne; omega)
      · rfl

theorem swimF_length {α : Type} (fuel : Nat) :
    ∀ (l r : List (Node α)) (i : Nat), swimF fuel l i = some r →
      r.length = l.length := by
  induction fuel with
  | zero => intro l r i h; simp [swimF] at h
  | succ fuel ih =>
    intro l r i h
    simp only [swimF] at h
    split at h
    · rw [← Option.some.inj h]
    · split at h
      · rw [ih _ _ _ h, swapNodes_length]
      · rw [← Option.some.inj h]

theorem swim_length {α : Type} (l : List (Node α)) (i : Nat) :
    (swim l i).length = l.length := by
  unfold swim
  have hs := swimF_isSome (i + 1) l i (by omega)
  cases hobt : swimF (i + 1) l i with
  | none => rw [hobt] at hs; simp at hs
  | some r => simpa using swimF_length _ _ _ _ hobt

theorem swim_stop {α : Type} {l : List (Node α)} {i : Nat}
    (h : parentIdxOf i = i ∨ greaterPriority l i (parentIdxOf i) = false) :
    swim l i = l := by
  unfold swim
  simp only [swimF]
  rcases h with h | h
  · rw [if_pos h]
    rfl
  · by_cases hp : parentIdxOf i = i
    · rw [if_pos hp]
      rfl
    · rw [if_neg hp, if_neg (by simp [h])]
      rfl

theorem swim_zero {α : Type} (l : List (Node α)) : swim l 0 = l :=
  swim_stop (Or.inl rfl)

theorem grown_spec {α : Type} (q : PQ α) :
    q.grown.nodes = q.nodes ∧ q.grown.nextId = q.nextId ∧
    q.grown.initialCapacity = q.initialCapacity ∧
    q.grown.stepSize = q.stepSize ∧
    (q.grown.capacity, q.grown.numResizes) =
      (if q.nodes.length = q.capacity then (q.capacity + q.stepSize, q.numResizes + 1)
       else (q.capacity, q.numResizes)) := by
  unfold PQ.grown PQ.resize
  split <;> simp

theorem insert_ok {α : Type} {q q2 : PQ α} {it : α} {sc : Int}
    (h : q.insert it sc = Except.ok q2) :
    q2 = { q.grown with
      nodes := swim (q.grown.nodes ++ [Node.mk it sc q.grown.nextId])
        q.grown.nodes.length,
      nextId := q.grown.nextId + 1 } ∧
    ¬(q.grown.nextId = MAX_ID ∧ q.grown.nodes.length < MAX_ID) := by
  unfold PQ.insert PQ.checkIdOverflow at h
  split at h
  · simp [Except.bind] at h
  · next hcond =>
    simp only [Except.bind, Except.ok.injEq] at h
    exact ⟨h.symm, hcond⟩

theorem checkCapacity_spec {α : Type} (q : PQ α) :
    q.checkCapacity.nodes = q.nodes ∧
    q.checkCapacity.initialCapacity = q.initialCapacity ∧
    q.checkCapacity.stepSize = q.stepSize ∧
    q.checkCapacity.nextId = q.nextId ∧
    (q.checkCapacity.capacity, q.checkCapacity.numResizes) =
      (if 2 * q.stepSize ≤ q.capacity ∧
          q.nodes.length < q.capacity - 2 * q.stepSize ∧
          q.initialCapacity ≤ q.capacity - q.stepSize
        then (q.capacity - q.stepSize, q.numResizes + 1)
        else (q.capacity, q.numResizes)) := by
  unfold PQ.checkCapacity PQ.resize
  split_ifs <;> simp_all

theorem pop_spec {α : Type} (q : PQ α) (h : q.nodes.length ≠ 0) :
    q.pop.nodes = sink ((swapNodes q.nodes 0 (q.nodes.length - 1)).dropLast) 0 ∧
    q.pop.nodes.length = q.nodes.length - 1 ∧
    q.pop.initialCapacity = q.initialCapacity ∧
    q.pop.stepSize = q.stepSize ∧
    q.pop.nextId = q.nextId ∧
    (q.pop.capacity, q.pop.numResizes) =
      (if 2 * q.stepSize ≤ q.capacity ∧
          q.nodes.length - 1 < q.capacity - 2 * q.stepSize ∧
          q.initialCapacity ≤ q.capacity - q.stepSize
        then (q.capacity - q.stepSize, q.numResizes + 1)
        else (q.capacity, q.numResizes)) := by
  have hlen : ((swapNodes q.nodes 0 (q.nodes.length - 1)).dropLast).length
      = q.nodes.length - 1 := by
    rw [List.length_dropLast, swapNodes_length]
  unfold PQ.pop
  rw [if_neg h]
  have hcc := checkCapacity_spec
    { q with nodes := (swapNodes q.nodes 0 (q.nodes.length - 1)).dropLast }
  refine ⟨by simp [hcc.1], ?_, by simp [hcc.2.1], by simp [hcc.2.2.1],
    by simp [hcc.2.2.2.1], ?_⟩
  · simp only [hcc.1]
    rw [sink_length, hlen]
  · simpa [hlen] using hcc.2.2.2.2

theorem reachable_inv {α : Type} {q : PQ α} (h : ReachablePQ q) :
    1 ≤ q.stepSize ∧ q.initialCapacity ≤ q.capacity ∧
      q.nodes.length ≤ q.capacity := by
  induction h with
  | fresh h =>
    next ic st j q =>
    unfold pqNew at h
    split at h
    · simp at h
    · next hcond =>
      cases h
      simp only [not_or] at hcond
      simp
      omega
  | insertStep hq hstep ih =>
    next q q2 it sc =>
    obtain ⟨hstruct, -⟩ := insert_ok hstep
    have hg := grown_spec q
    have hlen : q2.nodes.length = q.nodes.length + 1 := by
      rw [hstruct]
      simp only
      rw [swim_length, List.length_append, hg.1]
      rfl
    have hcap : q2.capacity = q.grown.capacity := by rw [hstruct]
    have hic : q2.initialCapacity = q.initialCapacity := by rw [hstruct]; simp [hg.2.2.1]
    have hst : q2.stepSize = q.stepSize := by rw [hstruct]; simp [hg.2.2.2.1]
    by_cases hfull : q.nodes.length = q.capacity
    · have : q.grown.capacity = q.capacity + q.stepSize := by
        have := hg.2.2.2.2
        rw [if_pos hfull] at this
        exact congrArg Prod.fst this
      omega
    · have : q.grown.capacity = q.capacity := by
        have := hg.2.2.2.2
        rw [if_neg hfull] at this
        exact congrArg Prod.fst this
      omega
  | popStep hq ih =>
    next q =>
    by_cases hz : q.nodes.length = 0
    · have : q.pop = q := by unfold PQ.pop; rw [if_pos hz]
      rw [this]
      exact ih
    · have hp := pop_spec q hz
      have hpair := hp.2.2.2.2.2
      rw [hp.2.1, hp.2.2.2.1, hp.2.2.1]
      split_ifs at hpair with hcond
      · have hcap : q.pop.capacity = q.capacity - q.stepSize :=
          congrArg Prod.fst hpair
        omega
      · have hcap : q.pop.capacity = q.capacity := congrArg Prod.fst hpair
        omega
  | clearStep hq ih =>
    next q =>
    unfold PQ.clear PQ.resize
    simp
    omega

/-! Claim theorems. -/

/-- Claim C1 (refuted, evaluation at the failing input): inserting items 0..5
with priorities `[1, 2, 4, 5, 0, 3]` into a fresh queue and then draining by
`top`/`pop` yields the (priority, insertion id) sequence
`[(5,3), (4,2), (3,5), (1,0), (2,1), (0,4)]`, which is not in non-increasing
priority order (a priority-2 item comes out after a priority-1 item), so the
claimed extraction order fails on the code. -/
theorem c1_drain_order_violated :
    c1Run = Except.ok [(5, 3), (4, 2), (3, 5), (1, 0), (2, 1), (0, 4)] ∧
    specOrderedPairs [(5, 3), (4, 2), (3, 5), (1, 0), (2, 1), (0, 4)] = false :=
  ⟨rfl, rfl⟩

/-- Claim C2 (refuted, evaluation at the failing inputs): after inserting
priorities `[0, 0, 1, 0, 1, 1]` (ids 0..5) and popping once, live index 4 has
parent index 1 yet `greaterPriority(4, 1)` holds, violating the heap-order
invariant; and after inserting priorities `[0, 0, 1, 1, 0, 1]` and popping
three times, `greaterPriority(1, 0)` holds, so the root (the node `top()`
returns) is not a global maximum of the live nodes. -/
theorem c2_heap_invariant_violated :
    c2RunA = Except.ok (PQ.mk
      [Node.mk 4 1 4, Node.mk 1 0 1, Node.mk 5 1 5, Node.mk 3 0 3,
        Node.mk 0 0 0] 30 10 30 6 0) ∧
    parentIdxOf 4 = 1 ∧
    greaterPriority
      [Node.mk 4 1 4, Node.mk 1 0 1, Node.mk 5 1 5, Node.mk 3 0 3,
        Node.mk (0 : Nat) 0 0] 4 1 = true ∧
    c2RunB = Except.ok (PQ.mk
      [Node.mk 1 0 1, Node.mk 0 0 0, Node.mk 4 0 4] 30 10 30 6 0) ∧
    greaterPriority
      [Node.mk 1 0 1, Node.mk 0 0 0, Node.mk (4 : Nat) 0 4] 1 0 = true :=
  ⟨rfl, rfl, rfl, rfl, rfl⟩

/-- Claim C6 (refuted, evaluation at the failing input): the constructor's
initializer list omits `mNextId`, so a freshly constructed queue's `nextId`
is whatever indeterminate value the member slot held — here 7 — and not 0. -/
theorem c6_nextId_uninitialized :
    (pqNew Nat 30 10 7).map PQ.nextId = Except.ok 7 ∧ (7 : Nat) ≠ 0 :=
  ⟨rfl, by decide⟩

/-- Claim C7 (refuted, evaluation at the failing input): on a queue whose
`nextId` equals `MAX_ID` while its size 0 is below `MAX_ID`, `insert` does not
renumber the live ids and complete — it propagates the `runtime_error` thrown
by the unimplemented `consolidateIds()`. -/
theorem c7_id_overflow_raises :
    (pqNew Nat 30 10 MAX_ID).bind (fun q => q.insert 0 5) =
      Except.error consolidateErrMsg ∧
    (pqNew Nat 30 10 MAX_ID).map PQ.getSize = Except.ok 0 ∧
    0 < MAX_ID :=
  ⟨rfl, rfl, by decide⟩

theorem greaterPriority_iff {α : Type} (l : List (Node α)) (a b : Nat) :
    greaterPriority l a b = true ↔
      (prioAt l b < prioAt l a ∨
        (prioAt l a = prioAt l b ∧ idAt l a < idAt l b)) := by
  simp [greaterPriority]

/-- Claim C3 (confirmed): the code's sift-down destination choice coincides
with the spec's two-step candidate rule (`candidateSpec`, modelled from the
spec's words); one loop iteration stops, leaving the array unchanged, exactly
when the candidate equals `i`, and otherwise swaps `i` with the candidate and
continues from there; in particular when neither child compares strictly
greater than the other (equal effective priority, or children absent via the
sentinel) the node does not descend. -/
theorem c3_sink_candidate_rule {α : Type} (l : List (Node α)) (i : Nat) :
    sinkDest l i = candidateSpec l i ∧
    (candidateSpec l i = i → sink l i = l) ∧
    (candidateSpec l i ≠ i →
      sink l i = sink (swapNodes l (candidateSpec l i) i) (candidateSpec l i)) ∧
    (greaterPriority l (rightIdxOf l.length i) (leftIdxOf l.length i) = false →
      greaterPriority l (leftIdxOf l.length i) (rightIdxOf l.length i) = false →
      sink l i = l) := by
  have hcand : sinkDest l i = candidateSpec l i := rfl
  refine ⟨rfl, ?_, ?_, ?_⟩
  · intro h
    rw [sink_unfold, if_pos (hcand.trans h)]
  · intro h
    rw [sink_unfold, if_neg (fun hc => h (hcand.symm.trans hc)), hcand]
  · intro h1 h2
    have hd : sinkDest l i = i := by
      unfold sinkDest
      rw [if_neg (by simp [h1]), if_neg (by simp [h2])]
    rw [sink_unfold, if_pos hd]

theorem c3_sink_candidate_rule_witness :
    sinkDest [Node.mk (0 : Nat) 1 0] 0 = candidateSpec [Node.mk (0 : Nat) 1 0] 0 ∧
    sink [Node.mk (0 : Nat) 1 0] 0 = [Node.mk (0 : Nat) 1 0] :=
  ⟨(c3_sink_candidate_rule [Node.mk (0 : Nat) 1 0] 0).1,
   (c3_sink_candidate_rule [Node.mk (0 : Nat) 1 0] 0).2.1 (by decide)⟩

/-- Claim C5 (confirmed): on a queue with size 0, any number of `pop` calls
is a no-op — no error is raised and the state (size, capacity, numResizes,
nextId, stored nodes) is completely unchanged. -/
theorem c5_pop_empty_noop {α : Type} (q : PQ α) (h : q.nodes.length = 0)
    (n : Nat) : Nat.iterate PQ.pop n q = q := by
  have hone : PQ.pop q = q := by
    unfold PQ.pop
    rw [if_pos h]
  induction n with
  | zero => rfl
  | succ n ih => rw [Function.iterate_succ_apply, hone, ih]

theorem c5_pop_empty_noop_witness :
    Nat.iterate PQ.pop 3 (PQ.mk ([] : List (Node Nat)) 30 10 30 0 0) =
      PQ.mk ([] : List (Node Nat)) 30 10 30 0 0 :=
  c5_pop_empty_noop (PQ.mk ([] : List (Node Nat)) 30 10 30 0 0) rfl 3

/-- Claim C8 (confirmed): `clear` leaves the queue with size 0 and capacity
equal to `initialCapacity` (the resize back down is unconditional, and being a
resize event it advances `numResizes` by exactly one rather than resetting
it); `nextId` and the configuration fields are untouched, so a subsequent
successful `insert` stamps the next item with the preserved, still-increasing
id `nextId`, not id 0. -/
theorem c8_clear_effects {α : Type} (q : PQ α) (it : α) (sc : Int) :
    (PQ.clear q).nodes.length = 0 ∧
    (PQ.clear q).capacity = q.initialCapacity ∧
    (PQ.clear q).nextId = q.nextId ∧
    (PQ.clear q).numResizes = q.numResizes + 1 ∧
    (PQ.clear q).initialCapacity = q.initialCapacity ∧
    (PQ.clear q).stepSize = q.stepSize ∧
    (∀ q2, (PQ.clear q).insert it sc = Except.ok q2 →
      q2.nextId = q.nextId + 1 ∧ Node.mk it sc q.nextId ∈ q2.nodes) := by
  refine ⟨rfl, rfl, rfl, rfl, rfl, rfl, ?_⟩
  intro q2 h
  obtain ⟨hstruct, -⟩ := insert_ok h
  have hg := grown_spec (PQ.clear q)
  have hnodes : (PQ.clear q).grown.nodes = [] := by
    rw [hg.1]
    rfl
  have hnid : (PQ.clear q).grown.nextId = q.nextId := by
    rw [hg.2.1]
    rfl
  constructor
  · rw [hstruct]
    simp [hnid]
  · rw [hstruct]
    simp only [hnodes, hnid, List.nil_append, List.length_nil]
    rw [swim_zero]
    simp

theorem c8_clear_effects_witness :
    (PQ.mk [Node.mk 7 1 5] 30 10 30 6 3 : PQ Nat).nextId = 5 + 1 ∧
    Node.mk 7 1 5 ∈ (PQ.mk [Node.mk 7 1 5] 30 10 30 6 3 : PQ Nat).nodes :=
  (c8_clear_effects (PQ.mk [Node.mk 9 3 0] 30 10 30 5 2 : PQ Nat) 7 1).2.2.2.2.2.2
    (PQ.mk [Node.mk 7 1 5] 30 10 30 6 3) rfl

/-- Claim C9 (confirmed): both heap-restoration loops terminate — the
sift-down loop returns within `size + 1` iterations and stops exactly when the
chosen candidate equals `i`, and the sift-up loop returns within `i + 1`
iterations and stops exactly when `i` is the root or the parent has
greater-or-equal effective priority — so neither `insert` nor `pop` can loop
forever. -/
theorem c9_sift_terminates {α : Type} (l : List (Node α)) (i : Nat) :
    (sinkF (l.length + 1) l i).isSome = true ∧
    (swimF (i + 1) l i).isSome = true ∧
    (sinkDest l i = i → sink l i = l) ∧
    (parentIdxOf i = i ∨ greaterPriority l i (parentIdxOf i) = false →
      swim l i = l) :=
  ⟨sinkF_isSome _ _ _ (by omega), swimF_isSome _ _ _ (by omega),
    fun h => by rw [sink_unfold, if_pos h], fun h => swim_stop h⟩

theorem c9_sift_terminates_witness :
    sink [Node.mk (0 : Nat) 5 0, Node.mk 1 3 1] 1 =
      [Node.mk (0 : Nat) 5 0, Node.mk 1 3 1] ∧
    swim [Node.mk (0 : Nat) 5 0, Node.mk 1 3 1] 1 =
      [Node.mk (0 : Nat) 5 0, Node.mk 1 3 1] :=
  ⟨(c9_sift_terminates [Node.mk (0 : Nat) 5 0, Node.mk 1 3 1] 1).2.2.1
      (by decide),
   (c9_sift_terminates [Node.mk (0 : Nat) 5 0, Node.mk 1 3 1] 1).2.2.2
      (Or.inr (by decide))⟩

/-- Claim C10 (confirmed): `greaterPriority` is irreflexive and asymmetric,
and on two live nodes with distinct insertion ids it is total (exactly one
direction holds, asymmetry ruling out both); irreflexivity makes the
missing-child sentinel (`child index == i`) act as "no candidate", so a leaf
never descends in sift-down, and sift-up stops immediately at the root. -/
theorem c10_comparator_strict_order {α : Type} (l : List (Node α))
    (a b i : Nat) (ha : a < l.length) (hb : b < l.length) :
    greaterPriority l a a = false ∧
    (greaterPriority l a b = true → greaterPriority l b a = false) ∧
    (idAt l a ≠ idAt l b →
      (greaterPriority l a b = true ∨ greaterPriority l b a = true)) ∧
    (l.length ≤ 2 * i + 1 → sink l i = l) ∧
    swim l 0 = l := by
  refine ⟨greaterPriority_irrefl l a, ?_, ?_, ?_, swim_zero l⟩
  · intro h
    rw [greaterPriority_iff] at h
    rw [Bool.eq_false_iff, Ne, greaterPriority_iff]
    omega
  · intro hid
    rw [greaterPriority_iff, greaterPriority_iff]
    omega
  · intro hlen
    have hL : leftIdxOf l.length i = i := by
      unfold leftIdxOf
      rw [if_neg (by omega)]
    have hR : rightIdxOf l.length i = i := by
      unfold rightIdxOf
      rw [if_neg (by omega)]
    have hd : sinkDest l i = i := by
      unfold sinkDest
      rw [hL, hR, if_neg (by simp [greaterPriority_irrefl]),
        if_neg (by simp [greaterPriority_irrefl])]
    rw [sink_unfold, if_pos hd]

theorem c10_comparator_strict_order_witness :
    greaterPriority [Node.mk (0 : Nat) 5 0, Node.mk 1 5 1] 0 0 = false ∧
    (greaterPriority [Node.mk (0 : Nat) 5 0, Node.mk 1 5 1] 0 1 = true ∨
      greaterPriority [Node.mk (0 : Nat) 5 0, Node.mk 1 5 1] 1 0 = true) ∧
    sink [Node.mk (0 : Nat) 5 0, Node.mk 1 5 1] 1 =
      [Node.mk (0 : Nat) 5 0, Node.mk 1 5 1] :=
  ⟨(c10_comparator_strict_order [Node.mk (0 : Nat) 5 0, Node.mk 1 5 1] 0 1 1
      (by decide) (by decide)).1,
   (c10_comparator_strict_order [Node.mk (0 : Nat) 5 0, Node.mk 1 5 1] 0 1 1
      (by decide) (by decide)).2.2.1 (by decide),
   (c10_comparator_strict_order [Node.mk (0 : Nat) 5 0, Node.mk 1 5 1] 0 1 1
      (by decide) (by decide)).2.2.2.1 (by decide)⟩

/-- Claim C4 (confirmed): a successful `insert` grows capacity by exactly
`stepSize` (with `numResizes` advancing by one) precisely when size equalled
capacity at the moment of insertion and otherwise leaves both untouched; a
`pop` on a nonempty queue shrinks capacity by exactly `stepSize` (advancing
`numResizes` by one) precisely when `capacity >= 2*stepSize`, the
post-removal size is `< capacity - 2*stepSize` and
`capacity - stepSize >= initialCapacity`, and otherwise leaves both
untouched; a `clear` resize advances `numResizes` by exactly one; and every
reachable state satisfies `capacity >= size` and
`capacity >= initialCapacity`. -/
theorem c4_capacity_policy {α : Type} (q : PQ α) (it : α) (sc : Int)
    (hq : ReachablePQ q) :
    (∀ q2, q.insert it sc = Except.ok q2 →
        (q.nodes.length = q.capacity →
          q2.capacity = q.capacity + q.stepSize ∧
            q2.numResizes = q.numResizes + 1) ∧
        (q.nodes.length ≠ q.capacity →
          q2.capacity = q.capacity ∧ q2.numResizes = q.numResizes)) ∧
    (q.nodes.length ≠ 0 →
        ((2 * q.stepSize ≤ q.capacity ∧
            q.nodes.length - 1 < q.capacity - 2 * q.stepSize ∧
            q.initialCapacity ≤ q.capacity - q.stepSize) →
          q.pop.capacity = q.capacity - q.stepSize ∧
            q.pop.numResizes = q.numResizes + 1) ∧
        (¬(2 * q.stepSize ≤ q.capacity ∧
            q.nodes.length - 1 < q.capacity - 2 * q.stepSize ∧
            q.initialCapacity ≤ q.capacity - q.stepSize) →
          q.pop.capacity = q.capacity ∧ q.pop.numResizes = q.numResizes)) ∧
    (PQ.clear q).numResizes = q.numResizes + 1 ∧
    (q.nodes.length ≤ q.capacity ∧ q.initialCapacity ≤ q.capacity) := by
  have hinv := reachable_inv hq
  refine ⟨?_, ?_, rfl, hinv.2.2, hinv.2.1⟩
  · intro q2 h
    obtain ⟨hstruct, -⟩ := insert_ok h
    have hg := grown_spec q
    have hcap : q2.capacity = q.grown.capacity := by rw [hstruct]
    have hnr : q2.numResizes = q.grown.numResizes := by rw [hstruct]
    constructor
    · intro hfull
      have hpair := hg.2.2.2.2
      rw [if_pos hfull] at hpair
      refine ⟨?_, ?_⟩
      · rw [hcap]
        exact congrArg Prod.fst hpair
      · rw [hnr]
        exact congrArg Prod.snd hpair
    · intro hfull
      have hpair := hg.2.2.2.2
      rw [if_neg hfull] at hpair
      refine ⟨?_, ?_⟩
      · rw [hcap]
        exact congrArg Prod.fst hpair
      · rw [hnr]
        exact congrArg Prod.snd hpair
  · intro hne
    have hp := pop_spec q hne
    have hpair := hp.2.2.2.2.2
    constructor
    · intro hcond
      rw [if_pos hcond] at hpair
      exact ⟨congrArg Prod.fst hpair, congrArg Prod.snd hpair⟩
    · intro hcond
      rw [if_neg hcond] at hpair
      exact ⟨congrArg Prod.fst hpair, congrArg Prod.snd hpair⟩

theorem c4_capacity_policy_witness :
    pqNew Nat 30 10 0 = Except.ok (PQ.mk [] 30 10 30 0 0) ∧
    ((PQ.mk ([] : List (Node Nat)) 30 10 30 0 0).nodes.length ≤
        (PQ.mk ([] : List (Node Nat)) 30 10 30 0 0).capacity ∧
      (PQ.mk ([] : List (Node Nat)) 30 10 30 0 0).initialCapacity ≤
        (PQ.mk ([] : List (Node Nat)) 30 10 30 0 0).capacity) :=
  ⟨rfl,
    (c4_capacity_policy (PQ.mk [] 30 10 30 0 0) 0 0 (ReachablePQ.fresh
      (show pqNew Nat 30 10 0 = Except.ok (PQ.mk [] 30 10 30 0 0) from rfl))).2.2.2⟩
